import Mathlib

/-!
Verification of the pyqir generator core: a shallow embedding of
`qirlib/src/generation/interop.rs` (the IR data model) and
`pyqir-generator/src/python.rs` (the builder state machine), with theorems
checking the natural-language specification against the code.

Conventions of the embedding:
* Rust `u32`/`u64`/`i64` become `Nat` (the builder only ever increments the
  variable id from 0, and the integer-literal constructor is checked against
  the 64-bit range explicitly where it matters).
* Rust `f64` is opaque to the generator (doubles are stored, never inspected),
  so it is modelled by an opaque wrapper `Float64`.
* Fallible Rust paths (`PyResult`, `Option`, panics) become `Except` /
  `Option`; a Rust `panic!` / `expect` is an error value with the panic noted
  in a comment.
* Methods taking `&mut self` become functions returning the updated `Builder`
  alongside the result; an early error return leaves the builder exactly as
  it was at the point of the return, matching the in-place Rust semantics.
* The top of the Rust `Vec` frame stack is the *last* element, so the model
  uses `List` with `getLast?` / `dropLast` / append-at-end.
-/

namespace PyQir

/-- Rust `ValueType` from interop.rs: `Integer{width: u32}`, `Double`, `Qubit`,
`Result`. -/
inductive ValueType where
  | Integer (width : Nat)
  | Double
  | Qubit
  | Result
deriving DecidableEq, Repr

/-- Rust `ReturnType` from interop.rs. -/
inductive ReturnType where
  | Void
  | Value (t : ValueType)
deriving DecidableEq, Repr

/-- Rust `FunctionType` from interop.rs. -/
structure FunctionType where
  param_types : List ValueType
  return_type : ReturnType
deriving DecidableEq, Repr

/-- Rust `Variable` from interop.rs: a value type together with an id.  The Rust
id is an `i64` that starts at 0 and only ever increments, so it is a `Nat`
here. -/
structure Variable where
  ty : ValueType
  id : Nat
deriving DecidableEq, Repr

/-- Rust `Variable::new` from interop.rs: first variable, id 0. -/
def Variable.new (ty : ValueType) : Variable := ⟨ty, 0⟩

/-- Rust `Variable::next` from interop.rs: successor variable, id one greater. -/
def Variable.next (v : Variable) (ty : ValueType) : Variable := ⟨ty, v.id + 1⟩

/-- Rust `Integer` from interop.rs: a `(width, value)` pair (Rust `u32`/`u64`). -/
structure Integer where
  width : Nat
  value : Nat
deriving DecidableEq, Repr

/-- The number of significant bits of a natural number; for `v < 2^64` this
is exactly what `u64::BITS - u64::leading_zeros(value)` computes in
`Integer::new`. -/
def bitLength : Nat → Nat
  | 0 => 0
  | n + 1 => bitLength ((n + 1) / 2) + 1
decreasing_by exact Nat.div_lt_self (Nat.succ_pos n) (by norm_num)

/-- Rust `Integer::new` from interop.rs: returns `none` when the number of bits
required to represent `value` is greater than `width`. -/
def Integer.new (width value : Nat) : Option Integer :=
  if bitLength value ≤ width then some ⟨width, value⟩ else none

/-- Opaque model of Rust `f64`: the generator stores doubles without ever
inspecting them, so the payload is irrelevant to every property proved
here. -/
structure Float64 where
  bits : Nat
deriving DecidableEq, Repr

/-- Conversion used when a Python `int` is extracted as an `f64`
(`PyFloat_AsDouble` accepts integers); the resulting payload is opaque. -/
def Float64.ofNat (n : Nat) : Float64 := ⟨n⟩

/-- Rust `Value` from interop.rs: integer literal, double literal, qubit/result
reference (opaque string id), or a builder-allocated variable. -/
inductive Value where
  | Integer (i : PyQir.Integer)
  | Double (d : Float64)
  | Qubit (id : String)
  | Result (id : String)
  | Variable (v : PyQir.Variable)
deriving DecidableEq, Repr

/-- Rust `Value::type_of` from interop.rs. -/
def Value.type_of : Value → ValueType
  | .Integer i => .Integer i.width
  | .Double _ => .Double
  | .Qubit _ => .Qubit
  | .Result _ => .Result
  | .Variable v => v.ty

/-- Rust `Controlled` from interop.rs. -/
structure Controlled where
  control : String
  target : String
deriving DecidableEq, Repr

/-- Rust `Measured` from interop.rs. -/
structure Measured where
  qubit : String
  target : String
deriving DecidableEq, Repr

/-- Rust `Rotated` from interop.rs. -/
structure Rotated where
  theta : Value
  qubit : String
deriving DecidableEq, Repr

/-- Rust `Single` from interop.rs. -/
structure Single where
  qubit : String
deriving DecidableEq, Repr

/-- Rust `IntPredicate` (re-exported from inkwell): the ten integer comparison
predicates used by `BinaryKind::ICmp`. -/
inductive IntPredicate where
  | EQ | NE | UGT | UGE | ULT | ULE | SGT | SGE | SLT | SLE
deriving DecidableEq, Repr

/-- Rust `BinaryKind` from interop.rs. -/
inductive BinaryKind where
  | And | Or | Xor | Add | Sub | Mul | Shl | LShr
  | ICmp (p : IntPredicate)
deriving DecidableEq, Repr

/-- Rust `Instruction` from interop.rs.  The `BinaryOp`, `Call` and `If` struct
fields are inlined into their constructors because `If` recursively contains
instruction lists. -/
inductive Instruction where
  | Cx (c : Controlled)
  | Cz (c : Controlled)
  | H (s : Single)
  | S (s : Single)
  | SAdj (s : Single)
  | T (s : Single)
  | TAdj (s : Single)
  | X (s : Single)
  | Y (s : Single)
  | Z (s : Single)
  | Rx (r : Rotated)
  | Ry (r : Rotated)
  | Rz (r : Rotated)
  | Reset (s : Single)
  | M (m : Measured)
  | BinaryOp (kind : BinaryKind) (lhs rhs : Value) (result : Variable)
  | Call (name : String) (args : List Value) (result : Option Variable)
  | If (condition : String) (then_insts else_insts : List Instruction)

/-- Rust `QuantumRegister` from interop.rs. -/
structure QuantumRegister where
  name : String
  index : Nat
deriving DecidableEq, Repr

/-- Rust `ClassicalRegister` from interop.rs. -/
structure ClassicalRegister where
  name : String
  size : Nat
deriving DecidableEq, Repr

/-- Rust `SemanticModel` from interop.rs. -/
structure SemanticModel where
  name : String
  registers : List ClassicalRegister
  qubits : List QuantumRegister
  instructions : List Instruction
  use_static_qubit_alloc : Bool
  use_static_result_alloc : Bool
  external_functions : List (String × FunctionType)

/-! The builder state machine, from pyqir-generator/src/python.rs -/

/-- Rust `QUBIT_NAME` prefix: the opaque id of the qubit with the given index
(`Qubit::id`). -/
def qubitId (index : Nat) : String := "qubit" ++ toString index

/-- Rust `RESULT_NAME` prefix: the opaque id of the result with the given index
(`ResultRef::id`). -/
def resultId (index : Nat) : String := "result" ++ toString index

/-- Rust `Function` from python.rs: the handle returned by
`add_external_function`, carrying only the callee name. -/
structure Function where
  name : String
deriving DecidableEq, Repr

/-- Rust `Builder` from python.rs: the frame stack (top of the Rust `Vec` is the
*last* list element), the external-function table, and the last allocated
variable. -/
structure Builder where
  frames : List (List Instruction)
  external_functions : List (String × FunctionType)
  last_variable : Option Variable

/-- Rust `Builder::new` from python.rs: one empty frame, no functions, no
variables. -/
def Builder.new : Builder := ⟨[[]], [], none⟩

/-- Rust `Builder::push_inst` from python.rs: append to the top-of-stack frame.
The Rust code unwraps `frames.last_mut()`, panicking on an empty stack;
that panic is the `none` case here (unreachable from the public API, which
never lets the stack become empty). -/
def Builder.push_inst? (b : Builder) (inst : Instruction) : Option Builder :=
  match b.frames.getLast? with
  | none => none
  | some f => some { b with frames := b.frames.dropLast ++ [f ++ [inst]] }

/-- Rust `Builder::push_frame` from python.rs: push a new empty frame. -/
def Builder.push_frame (b : Builder) : Builder :=
  { b with frames := b.frames ++ [[]] }

/-- Rust `Builder::pop_frame` from python.rs: `Vec::pop` — remove and return the
top frame, or `none` (leaving the builder unchanged) if the stack is
empty. -/
def Builder.pop_frame (b : Builder) : Option (List Instruction) × Builder :=
  match b.frames.getLast? with
  | none => (none, b)
  | some f => (some f, { b with frames := b.frames.dropLast })

/-- Rust `Builder::fresh_variable` from python.rs: the first allocation is
`Variable::new` (id 0), every later one is `last.next` (id + 1); the
allocated variable becomes `last_variable`. -/
def Builder.fresh_variable (b : Builder) (ty : ValueType) : Variable × Builder :=
  let v := match b.last_variable with
    | none => Variable.new ty
    | some w => w.next ty
  (v, { b with last_variable := some v })

/-- The Python-level argument objects a builder operation can receive, as
far as the extraction code in python.rs distinguishes them: an already
typed `Value` (the pyclass wrapper around `interop::Value`), a nonnegative
machine-range Python `int`, a Python `float`, the `Qubit` / `ResultRef`
pyclasses, or anything else. -/
inductive PyObj where
  | value (v : Value)
  | int (n : Nat)
  | float (d : Float64)
  | qubitRef (index : Nat)
  | resultRef (index : Nat)
  | other

/-- Is the object an already typed `Value`?  Mirrors whether
`ob.extract::<Value>()` succeeds in python.rs. -/
def PyObj.isValue : PyObj → Bool
  | .value _ => true
  | _ => false

/-- The failure modes of the builder operations in python.rs.
`unknownCallee` is the Rust panic `"Function not found in module."` in
`Builder::call`; `frameUnderflow` is the panic on an empty frame stack in
`push_inst` / the `unwrap` in `if_result`; the others are the
`PyTypeError` / `PyOverflowError` / `PyValueError` values raised. -/
inductive BuilderError where
  | typeMismatch (msg : String)
  | overflow (msg : String)
  | arityMismatch (expected got : Nat)
  | unknownCallee (name : String)
  | frameUnderflow
deriving DecidableEq, Repr

/-- Rust `extract_value` from python.rs: an object that is already a `Value` is
used as-is (whatever the expected type); otherwise the object is coerced by
the expected type — `Integer` accepts a machine-range `int` checked by
`Integer::new`, `Double` accepts a `float` (or an `int`, via
`PyFloat_AsDouble`), `Qubit` / `Result` accept only the corresponding
reference classes. -/
def extract_value (ob : PyObj) (ty : ValueType) : Except BuilderError Value :=
  match ob with
  | .value v => .ok v
  | _ =>
    match ty with
    | .Integer width =>
      match ob with
      | .int n =>
        match Integer.new width n with
        | some i => .ok (.Integer i)
        | none => .error (.overflow "Value too big for integer of this width.")
      | _ => .error (.typeMismatch "Expected an int.")
    | .Double =>
      match ob with
      | .float d => .ok (.Double d)
      | .int n => .ok (.Double (Float64.ofNat n))
      | _ => .error (.typeMismatch "Expected a float.")
    | .Qubit =>
      match ob with
      | .qubitRef i => .ok (.Qubit (qubitId i))
      | _ => .error (.typeMismatch "Expected a Qubit.")
    | .Result =>
      match ob with
      | .resultRef i => .ok (.Result (resultId i))
      | _ => .error (.typeMismatch "Expected a ResultRef.")

/-- Rust `extract_binary_operands` from python.rs: if the lhs is a `Value`, the
rhs is extracted against the lhs type; otherwise if the rhs is a `Value`,
the lhs is extracted against the rhs type; otherwise a type error. -/
def extract_binary_operands (lhs rhs : PyObj) :
    Except BuilderError (Value × Value) :=
  match lhs with
  | .value l =>
    match extract_value rhs l.type_of with
    | .ok r => .ok (l, r)
    | .error e => .error e
  | _ =>
    match rhs with
    | .value r =>
      match extract_value lhs r.type_of with
      | .ok l => .ok (l, r)
      | .error e => .error e
    | _ => .error (.typeMismatch "At least one operand must be a Value.")

/-- Rust `Builder::push_binary_op` from python.rs: allocate one fresh variable
typed by the *lhs* operand, append one `BinaryOp` instruction, return the
variable as a `Value`.  The `none` result is the push-on-empty-stack
panic (with the builder state at the panic point). -/
def Builder.push_binary_op (b : Builder) (kind : BinaryKind) (lhs rhs : Value) :
    Option Value × Builder :=
  let (result, b1) := b.fresh_variable lhs.type_of
  match b1.push_inst? (.BinaryOp kind lhs rhs result) with
  | some b2 => (some (.Variable result), b2)
  | none => (none, b1)

/-- Rust `Builder::push_binary_op_any` from python.rs: resolve the two operand
objects, then push the binary operation.  Shared by and/or/xor/add/sub/mul/
shl/lshr and all ten `icmp_*` methods (which pass `BinaryKind.ICmp p`). -/
def Builder.push_binary_op_any (b : Builder) (kind : BinaryKind)
    (lhs rhs : PyObj) : Except BuilderError Value × Builder :=
  match extract_binary_operands lhs rhs with
  | .error e => (.error e, b)
  | .ok (l, r) =>
    match b.push_binary_op kind l r with
    | (some v, b') => (.ok v, b')
    | (none, b') => (.error .frameUnderflow, b')

/-- Rust `Builder::call` from python.rs: look the callee up in the
external-function table (first match; a missing name is the Rust panic
`"Function not found in module."`), check the arity, extract each argument
against its declared parameter type in order, allocate a result variable
when the return type is not `Void`, and append one `Call` instruction. -/
def Builder.call (b : Builder) (function : Function) (args : List PyObj) :
    Except BuilderError (Option Value) × Builder :=
  match b.external_functions.find? (fun f => f.1 == function.name) with
  | none => (.error (.unknownCallee function.name), b)
  | some (_, ty) =>
    if args.length ≠ ty.param_types.length then
      (.error (.arityMismatch ty.param_types.length args.length), b)
    else
      match (args.zip ty.param_types).mapM (fun at_ => extract_value at_.1 at_.2) with
      | .error e => (.error e, b)
      | .ok argVals =>
        let (result, b1) :=
          match ty.return_type with
          | .Void => (none, b)
          | .Value t =>
            let (v, b') := b.fresh_variable t
            (some v, b')
        match b1.push_inst? (.Call function.name argVals result) with
        | some b2 => (.ok (result.map Value.Variable), b2)
        | none => (.error .frameUnderflow, b1)

/-- Rust `BasicQisBuilder::rx` from python.rs: extract the angle against
`ValueType.Double`, then append one `Rx` instruction. -/
def Builder.rx (b : Builder) (theta : PyObj) (qubit : Nat) :
    Except BuilderError Unit × Builder :=
  match extract_value theta .Double with
  | .error e => (.error e, b)
  | .ok v =>
    match b.push_inst? (.Rx ⟨v, qubitId qubit⟩) with
    | some b' => (.ok (), b')
    | none => (.error .frameUnderflow, b)

/-- Rust `BasicQisBuilder::ry` from python.rs. -/
def Builder.ry (b : Builder) (theta : PyObj) (qubit : Nat) :
    Except BuilderError Unit × Builder :=
  match extract_value theta .Double with
  | .error e => (.error e, b)
  | .ok v =>
    match b.push_inst? (.Ry ⟨v, qubitId qubit⟩) with
    | some b' => (.ok (), b')
    | none => (.error .frameUnderflow, b)

/-- Rust `BasicQisBuilder::rz` from python.rs. -/
def Builder.rz (b : Builder) (theta : PyObj) (qubit : Nat) :
    Except BuilderError Unit × Builder :=
  match extract_value theta .Double with
  | .error e => (.error e, b)
  | .ok v =>
    match b.push_inst? (.Rz ⟨v, qubitId qubit⟩) with
    | some b' => (.ok (), b')
    | none => (.error .frameUnderflow, b)

/-- A branch callback handed to `if_result`: arbitrary caller code running
against the shared builder, returning either success or a raised error,
together with the builder state it leaves behind (a failing callback's
mutations persist, as with the shared `Py<Builder>` in the source). -/
def Callback := Builder → Except BuilderError Unit × Builder

/-- The `build_frame` closure inside `BasicQisBuilder::if_result`: push a
fresh frame, run the callback if one was supplied (its error propagates
*before* the frame is popped), then pop the frame and return its contents.
The `unwrap` on `pop_frame` is the `frameUnderflow` case. -/
def Builder.build_frame (b : Builder) (callback : Option Callback) :
    Except BuilderError (List Instruction) × Builder :=
  let b1 := b.push_frame
  let rb : Except BuilderError Unit × Builder :=
    match callback with
    | none => (.ok (), b1)
    | some cb => cb b1
  match rb.1 with
  | .error e => (.error e, rb.2)
  | .ok _ =>
    match rb.2.pop_frame with
    | (some insts, b3) => (.ok insts, b3)
    | (none, b3) => (.error .frameUnderflow, b3)

/-- Rust `BasicQisBuilder::if_result` from python.rs: build the `then` frame
from the `one` callback, then the `else` frame from the `zero` callback,
then append a single `If` instruction with both captured lists. -/
def Builder.if_result (b : Builder) (result : Nat)
    (one zero : Option Callback) : Except BuilderError Unit × Builder :=
  match b.build_frame one with
  | (.error e, b1) => (.error e, b1)
  | (.ok then_insts, b1) =>
    match b1.build_frame zero with
    | (.error e, b2) => (.error e, b2)
    | (.ok else_insts, b2) =>
      match b2.push_inst? (.If (resultId result) then_insts else_insts) with
      | some b3 => (.ok (), b3)
      | none => (.error .frameUnderflow, b2)

/-- Rust `SimpleModule::add_external_function` from python.rs: push the
`(name, type)` pair onto the builder's table and return a `Function`
handle. -/
def Builder.add_external_function (b : Builder) (name : String)
    (ty : FunctionType) : Builder × Function :=
  ({ b with external_functions := b.external_functions ++ [(name, ty)] },
   ⟨name⟩)

/-- Rust `SimpleModule::model_from_builder` from python.rs: if the frame stack
holds exactly one frame, clone it (and the external-function table) into
the module's semantic model; otherwise panic — modelled as the error
string of the Rust panic message. -/
def model_from_builder (m : SemanticModel) (b : Builder) :
    Except String SemanticModel :=
  match b.frames with
  | [instructions] =>
    .ok { m with
          instructions := instructions
          external_functions := b.external_functions }
  | _ => .error "Builder does not contain exactly one stack frame."

/-- Rust `SimpleModule::new` from python.rs: the initial semantic model for a
module with the given name and register sizes (static allocation flags
default to `true`). -/
def SimpleModule.newModel (name : String) (num_qubits num_results : Nat) :
    SemanticModel :=
  { name := name
    registers := [⟨"result", num_results⟩]
    qubits := (List.range num_qubits).map (fun i => ⟨"qubit", i⟩)
    instructions := []
    use_static_qubit_alloc := true
    use_static_result_alloc := true
    external_functions := [] }

/-- Iterated `fresh_variable`: the variables allocated by a sequence of
requests with the given types, in order, together with the final builder.
(Helper for stating the sequential-allocation property; each step is the
source's `fresh_variable`.) -/
def Builder.allocSeq (b : Builder) : List ValueType → List Variable × Builder
  | [] => ([], b)
  | t :: ts =>
    let (v, b') := b.fresh_variable t
    let (vs, b'') := b'.allocSeq ts
    (v :: vs, b'')

/-- The spec's wording for the integer-literal invariant, stated
independently of the source: the minimum number of bits needed to represent
a value (zero needs no bits; otherwise one more than the base-2
logarithm). -/
def specMinBits (v : Nat) : Nat :=
  if v = 0 then 0 else Nat.log2 v + 1

/-! Helper lemmas -/

theorem bitLength_le_iff (w v : Nat) : bitLength v ≤ w ↔ v < 2 ^ w := by
  induction w generalizing v with
  | zero =>
    match v with
    | 0 => simp [bitLength]
    | n + 1 => simp [bitLength]
  | succ w ih =>
    match v with
    | 0 => simp [bitLength, Nat.pos_pow_of_pos]
    | n + 1 =>
      rw [bitLength, Nat.add_le_add_iff_right, ih, pow_succ,
        Nat.div_lt_iff_lt_mul (by norm_num : (0:ℕ) < 2)]

theorem specMinBits_le_iff (w v : Nat) : specMinBits v ≤ w ↔ v < 2 ^ w := by
  unfold specMinBits
  split
  · rename_i h
    subst h
    simp [Nat.pos_pow_of_pos]
  · rename_i h
    rw [Nat.add_one_le_iff, Nat.log2_lt h]

theorem bitLength_eq_specMinBits (v : Nat) : bitLength v = specMinBits v :=
  Nat.le_antisymm
    ((bitLength_le_iff _ v).mpr ((specMinBits_le_iff _ v).mp (Nat.le_refl _)))
    ((specMinBits_le_iff _ v).mpr ((bitLength_le_iff _ v).mp (Nat.le_refl _)))

theorem Integer.new_eq_some (w n : Nat) (i : Integer)
    (h : Integer.new w n = some i) : i = ⟨w, n⟩ := by
  unfold Integer.new at h
  split at h
  · exact (Option.some.injEq _ _).mp h |>.symm
  · exact absurd h (by simp)

theorem push_inst?_eq_some (b : Builder) (i : Instruction)
    (hb : b.frames ≠ []) :
    ∃ f, b.frames.getLast? = some f ∧
      b.push_inst? i =
        some { b with frames := b.frames.dropLast ++ [f ++ [i]] } := by
  cases hL : b.frames.getLast? with
  | none => exact absurd (List.getLast?_eq_none_iff.mp hL) hb
  | some f => exact ⟨f, rfl, by simp [Builder.push_inst?, hL]⟩

theorem fresh_variable_spec (b : Builder) (t : ValueType) :
    ((b.fresh_variable t).1).id =
        (match b.last_variable with
         | none => 0
         | some v => v.id + 1) ∧
      ((b.fresh_variable t).1).ty = t ∧
      ((b.fresh_variable t).2).last_variable = some (b.fresh_variable t).1 ∧
      ((b.fresh_variable t).2).frames = b.frames ∧
      ((b.fresh_variable t).2).external_functions = b.external_functions := by
  cases h : b.last_variable <;>
    simp [Builder.fresh_variable, Variable.new, Variable.next, h]

theorem allocSeq_ids (tys : List ValueType) (b : Builder) :
    ((b.allocSeq tys).1).map Variable.id =
      List.range'
        (match b.last_variable with
         | none => 0
         | some v => v.id + 1)
        tys.length := by
  induction tys generalizing b with
  | nil => simp [Builder.allocSeq]
  | cons t ts ih =>
    cases h : b.last_variable <;>
      simp [Builder.allocSeq, Builder.fresh_variable, h, ih, Variable.new,
        Variable.next, List.range'_succ]

/-! Claim theorems -/

/-- C1: variable allocation is strictly sequential.  `fresh_variable`
yields id 0 when nothing was allocated yet and the previous id plus one
otherwise, whatever the requested type; it touches neither the frame stack
nor the function table (so frame nesting is irrelevant); and a whole
sequence of allocations starting from a fresh build yields exactly the ids
0, 1, 2, …, never reused or reset. -/
theorem variable_ids_sequential :
    (∀ (b : Builder) (t : ValueType),
        ((b.fresh_variable t).1).id =
            (match b.last_variable with
             | none => 0
             | some v => v.id + 1) ∧
          ((b.fresh_variable t).1).ty = t ∧
          ((b.fresh_variable t).2).last_variable =
            some (b.fresh_variable t).1 ∧
          ((b.fresh_variable t).2).frames = b.frames ∧
          ((b.fresh_variable t).2).external_functions =
            b.external_functions) ∧
    (∀ (b : Builder) (tys : List ValueType), b.last_variable = none →
        ((b.allocSeq tys).1).map Variable.id = List.range tys.length) :=
  ⟨fresh_variable_spec, fun b tys h => by
    rw [allocSeq_ids, h, List.range_eq_range']⟩

/-- Witness for C1: three allocations of three different types on a fresh
builder get ids 0, 1, 2. -/
theorem variable_ids_sequential_witness :
    ((Builder.new.allocSeq
        [ValueType.Integer 64, ValueType.Double, ValueType.Qubit]).1).map
        Variable.id = [0, 1, 2] := by
  have h := variable_ids_sequential.2 Builder.new
    [ValueType.Integer 64, ValueType.Double, ValueType.Qubit] rfl
  simpa using h

/-- C4: `Integer::new w v` succeeds iff the minimum number of bits needed
to represent `v` is at most `w` (equivalently iff `v < 2 ^ w`); zero fits
every width; failure returns `none` rather than raising; success returns
exactly the `(width, value)` pair. -/
theorem integer_new_iff_fits (w v : Nat) (_hw : 1 ≤ w) (_hv : v < 2 ^ 64) :
    ((Integer.new w v).isSome ↔ specMinBits v ≤ w) ∧
      ((Integer.new w v).isSome ↔ v < 2 ^ w) ∧
      Integer.new w 0 = some ⟨w, 0⟩ ∧
      (∀ i, Integer.new w v = some i → i = ⟨w, v⟩) := by
  refine ⟨?_, ?_, ?_, ?_⟩
  · rw [← bitLength_eq_specMinBits]
    unfold Integer.new
    split <;> simp [*]
  · rw [← bitLength_le_iff]
    unfold Integer.new
    split <;> simp [*]
  · simp [Integer.new, bitLength]
  · intro i hi
    unfold Integer.new at hi
    split at hi
    · exact (Option.some.injEq _ _).mp hi |>.symm ▸ rfl
    · exact absurd hi (by simp)

/-- Witness for C4: an 8-bit literal accepts 255 and rejects 256. -/
theorem integer_new_iff_fits_witness :
    (Integer.new 8 255).isSome ∧ ¬(Integer.new 8 256).isSome :=
  ⟨((integer_new_iff_fits 8 255 (by norm_num) (by norm_num)).2.1).mpr
      (by norm_num),
   fun h => by
    have := ((integer_new_iff_fits 8 256 (by norm_num) (by norm_num)).2.1).mp h
    omega⟩

/-- C5: a call whose argument count differs from the declared parameter
count fails with an arity error, and a call to a name absent from the
external-function table fails with the unknown-callee failure (a Rust
panic `"Function not found in module."` in the source); in both cases the
builder — in particular its instruction frames — is returned exactly as it
was, so no instruction is appended. -/
theorem call_error_spec (b : Builder) (f : Function) (args : List PyObj) :
    (b.external_functions.find? (fun p => p.1 == f.name) = none →
        b.call f args = (.error (.unknownCallee f.name), b)) ∧
    (∀ name ty,
        b.external_functions.find? (fun p => p.1 == f.name) =
          some (name, ty) →
        args.length ≠ ty.param_types.length →
        b.call f args =
          (.error (.arityMismatch ty.param_types.length args.length), b)) := by
  constructor
  · intro h
    simp [Builder.call, h]
  · intro name ty hfind hlen
    simp [Builder.call, hfind, hlen]

/-- Witness for C5: calling an undeclared name on a fresh builder fails as
unknown callee; calling a declared unary function with zero arguments
fails with an arity error; the builder is unchanged both times. -/
theorem call_error_spec_witness :
    Builder.new.call ⟨"foo"⟩ [] =
      (.error (.unknownCallee "foo"), Builder.new) ∧
    (Builder.new.add_external_function "bar" ⟨[.Qubit], .Void⟩).1.call
        ⟨"bar"⟩ [] =
      (.error (.arityMismatch 1 0),
        (Builder.new.add_external_function "bar" ⟨[.Qubit], .Void⟩).1) :=
  ⟨(call_error_spec Builder.new ⟨"foo"⟩ []).1 rfl,
   (call_error_spec
        (Builder.new.add_external_function "bar" ⟨[.Qubit], .Void⟩).1
        ⟨"bar"⟩ []).2
      "bar" ⟨[.Qubit], .Void⟩ rfl (by simp)⟩

theorem extract_value_type (ob : PyObj) (ty : ValueType) (v : Value)
    (hob : ob.isValue = false) (h : extract_value ob ty = .ok v) :
    v.type_of = ty := by
  cases ob <;> simp [PyObj.isValue] at hob <;> cases ty <;>
    simp [extract_value] at h
  case int.Integer n width =>
    rcases hI : Integer.new width n with _ | i <;> rw [hI] at h
    · exact absurd h (by simp)
    · rw [← (Except.ok.injEq _ _).mp h, Integer.new_eq_some width n i hI]
      rfl
  all_goals rw [← h] <;> rfl

/-- C7: a binary-style operation where neither operand is already a typed
`Value` always fails with the type-mismatch error (leaving the builder
untouched, never guessing a type); when exactly one operand is a typed
`Value`, the other is extracted against that operand's type, and a
successful coercion of a raw operand yields a value of exactly that
type. -/
theorem binary_operands_typed_or_fail (b : Builder) (kind : BinaryKind)
    (lhs rhs : PyObj) :
    (lhs.isValue = false → rhs.isValue = false →
        extract_binary_operands lhs rhs =
          .error (.typeMismatch "At least one operand must be a Value.") ∧
        b.push_binary_op_any kind lhs rhs =
          (.error (.typeMismatch "At least one operand must be a Value."),
            b)) ∧
    (∀ l, lhs = .value l →
        extract_binary_operands lhs rhs =
          (extract_value rhs l.type_of).map (fun r => (l, r))) ∧
    (∀ r, rhs = .value r → lhs.isValue = false →
        extract_binary_operands lhs rhs =
          (extract_value lhs r.type_of).map (fun l => (l, r)) ∧
        (∀ l, extract_value lhs r.type_of = .ok l →
            l.type_of = r.type_of)) := by
  refine ⟨?_, ?_, ?_⟩
  · intro hl hr
    have he : extract_binary_operands lhs rhs =
        .error (.typeMismatch "At least one operand must be a Value.") := by
      cases lhs <;> simp [PyObj.isValue] at hl <;>
        cases rhs <;> simp [PyObj.isValue] at hr <;>
        rfl
    exact ⟨he, by simp [Builder.push_binary_op_any, he]⟩
  · intro l hl
    subst hl
    rcases h : extract_value rhs l.type_of with e | r <;>
      simp [extract_binary_operands, h, Except.map]
  · intro r hr hl
    subst hr
    refine ⟨?_, fun l h => extract_value_type lhs _ l hl h⟩
    cases lhs <;> simp [PyObj.isValue] at hl <;>
      rcases h : extract_value _ r.type_of with e | l <;>
      simp [extract_binary_operands, h, Except.map]

/-- Witness for C7: adding two raw integer literals fails with the
type-mismatch error and leaves the builder unchanged, while an operation
whose rhs is a typed 64-bit integer value coerces the raw lhs literal to a
64-bit integer. -/
theorem binary_operands_typed_or_fail_witness :
    Builder.new.push_binary_op_any .Add (.int 1) (.int 2) =
      (.error (.typeMismatch "At least one operand must be a Value."),
        Builder.new) ∧
    extract_binary_operands (.int 1) (.value (.Integer ⟨64, 2⟩)) =
      (extract_value (.int 1)
          (Value.Integer ⟨64, 2⟩).type_of).map
        (fun l => (l, Value.Integer ⟨64, 2⟩)) :=
  ⟨((binary_operands_typed_or_fail Builder.new .Add (.int 1) (.int 2)).1
      rfl rfl).2,
   ((binary_operands_typed_or_fail Builder.new .Add (.int 1)
        (.value (.Integer ⟨64, 2⟩))).2.2
      (Value.Integer ⟨64, 2⟩) rfl rfl).1⟩

theorem push_binary_op_spec (b : Builder) (hb : b.frames ≠ [])
    (kind : BinaryKind) (l r : Value) :
    b.push_binary_op kind l r =
      (some (.Variable (b.fresh_variable l.type_of).1),
       { frames := b.frames.dropLast ++
           [(b.frames.getLast?.getD []) ++
             [.BinaryOp kind l r (b.fresh_variable l.type_of).1]]
         external_functions := b.external_functions
         last_variable := some (b.fresh_variable l.type_of).1 }) := by
  cases hL : b.frames.getLast? with
  | none => exact absurd (List.getLast?_eq_none_iff.mp hL) hb
  | some f =>
    simp [Builder.push_binary_op, Builder.fresh_variable, Builder.push_inst?,
      hL]

theorem extract_binary_operands_coerced (lhs rhs : PyObj) (l r : Value)
    (hl : lhs.isValue = false)
    (h : extract_binary_operands lhs rhs = .ok (l, r)) :
    extract_value lhs r.type_of = .ok l := by
  cases lhs <;> simp [PyObj.isValue] at hl <;>
    cases rhs <;> simp only [extract_binary_operands] at h <;>
    first
      | (split at h <;> simp_all)
      | simp at h

/-- C6: every operand/arity/type/overflow failure is raised by the
offending operation itself and returns the builder exactly as it was: no
instruction appended, no variable allocated, earlier instructions
untouched.  Covers the binary-style operations (including the
comparisons), external calls, and the rotation gates. -/
theorem errors_leave_builder_unchanged (b : Builder) (hb : b.frames ≠ []) :
    (∀ kind lhs rhs e b',
        b.push_binary_op_any kind lhs rhs = (.error e, b') → b' = b) ∧
    (∀ f args e b', b.call f args = (.error e, b') → b' = b) ∧
    (∀ theta q e b', b.rx theta q = (.error e, b') → b' = b) ∧
    (∀ theta q e b', b.ry theta q = (.error e, b') → b' = b) ∧
    (∀ theta q e b', b.rz theta q = (.error e, b') → b' = b) := by
  refine ⟨?_, ?_, ?_, ?_, ?_⟩
  · intro kind lhs rhs e b' h
    rcases hE : extract_binary_operands lhs rhs with e' | ⟨l, r⟩
    · simp only [Builder.push_binary_op_any, hE, Prod.mk.injEq] at h
      exact h.2.symm
    · simp [Builder.push_binary_op_any, hE,
        push_binary_op_spec b hb kind l r] at h
  · intro f args e b' h
    rcases hF : b.external_functions.find? (fun p => p.1 == f.name) with
      _ | ⟨name, ty⟩
    · simp only [Builder.call, hF, Prod.mk.injEq] at h
      exact h.2.symm
    · by_cases hlen : args.length ≠ ty.param_types.length
      · simp only [Builder.call, hF, if_pos hlen, Prod.mk.injEq] at h
        exact h.2.symm
      · rcases hM : (args.zip ty.param_types).mapM
            (fun at_ => extract_value at_.1 at_.2) with e' | argVals
        · simp only [Builder.call, hF, if_neg hlen, hM, Prod.mk.injEq] at h
          exact h.2.symm
        · rcases hRT : ty.return_type with _ | t
          · obtain ⟨f₀, hL, hp⟩ :=
              push_inst?_eq_some b (.Call f.name argVals none) hb
            simp only [Builder.call, hF, if_neg hlen, hM, hRT, hp] at h
            simp at h
          · rcases hV : b.fresh_variable t with ⟨v, bV⟩
            have hfr : bV.frames = b.frames := by
              have hs := (fresh_variable_spec b t).2.2.2.1
              rw [hV] at hs
              exact hs
            obtain ⟨f₀, hL, hp⟩ :=
              push_inst?_eq_some bV (.Call f.name argVals (some v))
                (by rw [hfr]; exact hb)
            simp only [Builder.call, hF, if_neg hlen, hM, hRT, hV, hp] at h
            simp at h
  · intro theta q e b' h
    rcases hE : extract_value theta .Double with e' | v
    · simp only [Builder.rx, hE, Prod.mk.injEq] at h
      exact h.2.symm
    · obtain ⟨f₀, hL, hp⟩ := push_inst?_eq_some b (.Rx ⟨v, qubitId q⟩) hb
      simp [Builder.rx, hE, hp] at h
  · intro theta q e b' h
    rcases hE : extract_value theta .Double with e' | v
    · simp only [Builder.ry, hE, Prod.mk.injEq] at h
      exact h.2.symm
    · obtain ⟨f₀, hL, hp⟩ := push_inst?_eq_some b (.Ry ⟨v, qubitId q⟩) hb
      simp [Builder.ry, hE, hp] at h
  · intro theta q e b' h
    rcases hE : extract_value theta .Double with e' | v
    · simp only [Builder.rz, hE, Prod.mk.injEq] at h
      exact h.2.symm
    · obtain ⟨f₀, hL, hp⟩ := push_inst?_eq_some b (.Rz ⟨v, qubitId q⟩) hb
      simp [Builder.rz, hE, hp] at h

/-- Witness for C6: on a fresh builder, an `add` of two raw literals, a
call to an unknown function, and an `rx` with a `Qubit` passed as the
angle all fail and leave the builder exactly as it was. -/
theorem errors_leave_builder_unchanged_witness :
    Builder.new.push_binary_op_any .Add (.int 1) (.int 2) =
      ((Builder.new.push_binary_op_any .Add (.int 1) (.int 2)).1,
        Builder.new) ∧
    Builder.new.call ⟨"foo"⟩ [] =
      ((Builder.new.call ⟨"foo"⟩ []).1, Builder.new) ∧
    Builder.new.rx (.qubitRef 0) 0 =
      ((Builder.new.rx (.qubitRef 0) 0).1, Builder.new) := by
  have h := errors_leave_builder_unchanged Builder.new (by simp [Builder.new])
  refine ⟨?_, ?_, ?_⟩
  · have := h.1 .Add (.int 1) (.int 2)
      (.typeMismatch "At least one operand must be a Value.")
      (Builder.new.push_binary_op_any .Add (.int 1) (.int 2)).2 (by rfl)
    conv_lhs => rw [show Builder.new.push_binary_op_any .Add (.int 1)
      (.int 2) = ((Builder.new.push_binary_op_any .Add (.int 1) (.int 2)).1,
        (Builder.new.push_binary_op_any .Add (.int 1) (.int 2)).2) from rfl]
    rw [this]
  · have := h.2.1 ⟨"foo"⟩ [] (.unknownCallee "foo")
      (Builder.new.call ⟨"foo"⟩ []).2 (by rfl)
    conv_lhs => rw [show Builder.new.call ⟨"foo"⟩ [] =
      ((Builder.new.call ⟨"foo"⟩ []).1, (Builder.new.call ⟨"foo"⟩ []).2)
      from rfl]
    rw [this]
  · have := h.2.2.1 (.qubitRef 0) 0 (.typeMismatch "Expected a float.")
      (Builder.new.rx (.qubitRef 0) 0).2 (by rfl)
    conv_lhs => rw [show Builder.new.rx (.qubitRef 0) 0 =
      ((Builder.new.rx (.qubitRef 0) 0).1, (Builder.new.rx (.qubitRef 0) 0).2)
      from rfl]
    rw [this]

/-- C10: a successful binary-style operation — any kind, the ten integer
comparisons included — allocates exactly one fresh variable whose type is
the type of the resolved lhs operand (the typed operand's type when the
raw lhs was coerced), appends exactly one `BinaryOp` instruction to the
active frame, and returns the variable; no distinct boolean type is
introduced for comparisons. -/
theorem binary_op_success_spec (b : Builder) (hb : b.frames ≠ [])
    (kind : BinaryKind) (lhs rhs : PyObj) (l r : Value)
    (h : extract_binary_operands lhs rhs = .ok (l, r)) :
    ∃ v b',
      b.push_binary_op_any kind lhs rhs = (.ok (.Variable v), b') ∧
      v.ty = l.type_of ∧
      v.id = (match b.last_variable with
              | none => 0
              | some w => w.id + 1) ∧
      b'.last_variable = some v ∧
      b'.frames = b.frames.dropLast ++
        [(b.frames.getLast?.getD []) ++ [.BinaryOp kind l r v]] ∧
      b'.external_functions = b.external_functions ∧
      (lhs.isValue = false → v.ty = r.type_of) := by
  have hv := fresh_variable_spec b l.type_of
  refine ⟨(b.fresh_variable l.type_of).1,
    { frames := b.frames.dropLast ++
        [(b.frames.getLast?.getD []) ++
          [.BinaryOp kind l r (b.fresh_variable l.type_of).1]]
      external_functions := b.external_functions
      last_variable := some (b.fresh_variable l.type_of).1 },
    ?_, hv.2.1, hv.1, rfl, rfl, rfl, ?_⟩
  · simp only [Builder.push_binary_op_any, h,
      push_binary_op_spec b hb kind l r]
  · intro hl
    have hc := extract_binary_operands_coerced lhs rhs l r hl h
    rw [hv.2.1]
    exact extract_value_type lhs r.type_of l hl hc

/-- Witness for C10: an `icmp_eq` on a fresh builder with a 64-bit integer
value lhs and a 64-bit integer value rhs allocates variable 0 of 64-bit
integer type and appends one `BinaryOp`. -/
theorem binary_op_success_spec_witness :
    ∃ v b',
      Builder.new.push_binary_op_any (.ICmp .EQ)
          (.value (.Integer ⟨64, 2⟩)) (.value (.Integer ⟨64, 3⟩)) =
        (.ok (.Variable v), b') ∧
      v.ty = (Value.Integer ⟨64, 2⟩).type_of ∧
      v.id = (match Builder.new.last_variable with
              | none => 0
              | some w => w.id + 1) ∧
      b'.last_variable = some v ∧
      b'.frames = Builder.new.frames.dropLast ++
        [(Builder.new.frames.getLast?.getD []) ++
          [.BinaryOp (.ICmp .EQ) (.Integer ⟨64, 2⟩) (.Integer ⟨64, 3⟩) v]] ∧
      b'.external_functions = Builder.new.external_functions ∧
      ((PyObj.value (.Integer ⟨64, 2⟩)).isValue = false →
          v.ty = (Value.Integer ⟨64, 3⟩).type_of) :=
  binary_op_success_spec Builder.new (by simp [Builder.new]) (.ICmp .EQ)
    (.value (.Integer ⟨64, 2⟩)) (.value (.Integer ⟨64, 3⟩))
    (.Integer ⟨64, 2⟩) (.Integer ⟨64, 3⟩) rfl

/-- What it means for an optional branch callback to append exactly the
instruction list `L` to the frame it is run in: an absent callback appends
nothing, and a supplied callback, run on any builder with a pushed frame,
succeeds having appended `L` to the top frame (it may do anything to the
external-function table and the variable allocator, as real callbacks
do). -/
def CallbackAppends (c : Option Callback) (L : List Instruction) : Prop :=
  match c with
  | none => L = []
  | some cb => ∀ b : Builder, b.frames ≠ [] →
      ∃ ext lv, cb b =
        (.ok (),
         { frames := b.frames.dropLast ++
             [(b.frames.getLast?.getD []) ++ L]
           external_functions := ext
           last_variable := lv })

theorem build_frame_spec (b : Builder) (c : Option Callback)
    (L : List Instruction) (hc : CallbackAppends c L) :
    ∃ ext lv, b.build_frame c =
      (.ok L,
       { frames := b.frames
         external_functions := ext
         last_variable := lv }) := by
  cases c with
  | none =>
    have hL : L = [] := hc
    subst hL
    refine ⟨b.external_functions, b.last_variable, ?_⟩
    simp [Builder.build_frame, Builder.push_frame, Builder.pop_frame,
      List.getLast?_concat, List.dropLast_concat]
  | some cb =>
    obtain ⟨ext, lv, hcb⟩ := hc b.push_frame (by simp [Builder.push_frame])
    simp only [Builder.push_frame, List.getLast?_concat, List.dropLast_concat,
      List.nil_append] at hcb
    refine ⟨ext, lv, ?_⟩
    simp [Builder.build_frame, Builder.push_frame, hcb, Builder.pop_frame,
      List.getLast?_concat, List.dropLast_concat]

/-- C2: every `if_result` invocation appends exactly one `If` instruction
to the enclosing frame, with both a then list and an else list: an absent
callback gives that branch an empty list, and a supplied callback that
succeeds gives its branch exactly the instructions it appended, in
order. -/
theorem if_result_spec (b : Builder) (hb : b.frames ≠ []) (res : Nat)
    (one zero : Option Callback) (L1 L0 : List Instruction)
    (h1 : CallbackAppends one L1) (h0 : CallbackAppends zero L0) :
    ∃ b',
      b.if_result res one zero = (.ok (), b') ∧
      b'.frames = b.frames.dropLast ++
        [(b.frames.getLast?.getD []) ++
          [.If (resultId res) L1 L0]] := by
  obtain ⟨e1, l1, hbf1⟩ := build_frame_spec b one L1 h1
  obtain ⟨e0, l0, hbf0⟩ :=
    build_frame_spec ⟨b.frames, e1, l1⟩ zero L0 h0
  obtain ⟨f, hL, hp⟩ :=
    push_inst?_eq_some (⟨b.frames, e0, l0⟩ : Builder)
      (.If (resultId res) L1 L0) hb
  refine ⟨{ frames := b.frames.dropLast ++
              [f ++ [.If (resultId res) L1 L0]]
            external_functions := e0
            last_variable := l0 }, ?_, ?_⟩
  · simp only [Builder.if_result, hbf1, hbf0, hp]
  · simp [hL]

/-- Witness for C2: on a fresh builder, an `if_result` with no then
callback and an else callback appending one `X` gate produces exactly one
`If` instruction with an empty then list and `[X]` as the else list. -/
theorem if_result_spec_witness :
    ∃ b',
      Builder.new.if_result 0 none
          (some (fun bb =>
            (.ok (),
             { frames := bb.frames.dropLast ++
                 [(bb.frames.getLast?.getD []) ++
                   [.X ⟨qubitId 0⟩]]
               external_functions := bb.external_functions
               last_variable := bb.last_variable }))) =
        (.ok (), b') ∧
      b'.frames = Builder.new.frames.dropLast ++
        [(Builder.new.frames.getLast?.getD []) ++
          [.If (resultId 0) [] [.X ⟨qubitId 0⟩]]] :=
  if_result_spec Builder.new (by simp [Builder.new]) 0 none
    (some _) [] [.X ⟨qubitId 0⟩] rfl
    (fun bb _ => ⟨bb.external_functions, bb.last_variable, rfl⟩)

/-- C8, counterexample to the claim as stated: `rx` accepts a theta that
is already a typed `Value` of integer type (such as the result of an
integer operation), succeeds, and appends an `Rx` whose angle is *not*
Double-typed. -/
theorem rotation_theta_counterexample :
    (Builder.new.rx (.value (.Variable ⟨.Integer 64, 0⟩)) 0).1 = .ok () ∧
    (Builder.new.rx (.value (.Variable ⟨.Integer 64, 0⟩)) 0).2.frames =
      [[.Rx ⟨.Variable ⟨.Integer 64, 0⟩, qubitId 0⟩]] ∧
    (Value.Variable ⟨.Integer 64, 0⟩).type_of ≠ .Double :=
  ⟨rfl, rfl, by decide⟩

/-- C8 (amended): for every theta input accepted by rx/ry/rz that is not
already a typed `Value`, the appended rotation's angle is Double-typed; a
theta that is already a typed `Value` is used as-is, so its own type (which
may differ from Double) is what the instruction carries. -/
theorem rotations_theta_spec (b : Builder) (theta : PyObj) (q : Nat)
    (v : Value) (h : extract_value theta .Double = .ok v) :
    (theta.isValue = false → v.type_of = .Double) ∧
    (∀ w, theta = .value w → v = w) ∧
    (∀ b', b.push_inst? (.Rx ⟨v, qubitId q⟩) = some b' →
        b.rx theta q = (.ok (), b')) ∧
    (∀ b', b.push_inst? (.Ry ⟨v, qubitId q⟩) = some b' →
        b.ry theta q = (.ok (), b')) ∧
    (∀ b', b.push_inst? (.Rz ⟨v, qubitId q⟩) = some b' →
        b.rz theta q = (.ok (), b')) := by
  refine ⟨fun hnv => extract_value_type theta .Double v hnv h,
    ?_, ?_, ?_, ?_⟩
  · intro w hw
    subst hw
    exact ((Except.ok.injEq _ _).mp h).symm
  · intro b' hp
    simp only [Builder.rx, h, hp]
  · intro b' hp
    simp only [Builder.ry, h, hp]
  · intro b' hp
    simp only [Builder.rz, h, hp]

/-- Witness for C8 (amended): a raw float theta on a fresh builder is
stored as a Double-typed angle by `rx`. -/
theorem rotations_theta_spec_witness :
    ((PyObj.float ⟨0⟩).isValue = false →
        (Value.Double ⟨0⟩).type_of = .Double) ∧
    (∀ w, PyObj.float ⟨0⟩ = .value w → Value.Double ⟨0⟩ = w) ∧
    (∀ b', Builder.new.push_inst?
          (.Rx ⟨.Double ⟨0⟩, qubitId 0⟩) = some b' →
        Builder.new.rx (.float ⟨0⟩) 0 = (.ok (), b')) ∧
    (∀ b', Builder.new.push_inst?
          (.Ry ⟨.Double ⟨0⟩, qubitId 0⟩) = some b' →
        Builder.new.ry (.float ⟨0⟩) 0 = (.ok (), b')) ∧
    (∀ b', Builder.new.push_inst?
          (.Rz ⟨.Double ⟨0⟩, qubitId 0⟩) = some b' →
        Builder.new.rz (.float ⟨0⟩) 0 = (.ok (), b')) :=
  rotations_theta_spec Builder.new (.float ⟨0⟩) 0 (.Double ⟨0⟩) rfl

/-- C3: finalization succeeds exactly when the frame stack holds one
frame; the resulting model takes its instruction list from that frame and
its external-function list from the builder; any other depth is rejected
with the (panic) diagnostic rather than silently truncating. -/
theorem model_from_builder_spec (m : SemanticModel) (b : Builder) :
    ((∃ s, model_from_builder m b = .ok s) ↔ b.frames.length = 1) ∧
      (∀ insts, b.frames = [insts] →
          model_from_builder m b =
            .ok { m with
                  instructions := insts
                  external_functions := b.external_functions }) ∧
      (b.frames.length ≠ 1 →
          model_from_builder m b =
            .error "Builder does not contain exactly one stack frame.") := by
  rcases hf : b.frames with _ | ⟨x, _ | ⟨y, rest⟩⟩ <;>
    simp [model_from_builder, hf]

/-- Witness for C3: a fresh builder (depth 1) finalizes into the module's
model with an empty instruction list, while a builder with an extra frame
(depth 2) is rejected. -/
theorem model_from_builder_spec_witness :
    model_from_builder (SimpleModule.newModel "m" 1 1) Builder.new =
      .ok { SimpleModule.newModel "m" 1 1 with
            instructions := []
            external_functions := [] } ∧
    model_from_builder (SimpleModule.newModel "m" 1 1)
        Builder.new.push_frame =
      .error "Builder does not contain exactly one stack frame." :=
  ⟨(model_from_builder_spec (SimpleModule.newModel "m" 1 1) Builder.new).2.1
      [] rfl,
   (model_from_builder_spec (SimpleModule.newModel "m" 1 1)
        Builder.new.push_frame).2.2
      (by simp [Builder.new, Builder.push_frame])⟩

/-- C9: a finalized model is an independent snapshot.  Once
`model_from_builder` has produced `s`, appending an instruction, declaring
an external function, or allocating a variable yields builder states whose
own finalization differs in exactly the expected way, while the value `s`
taken earlier does not contain the new instruction or declaration (and an
allocation changes the model not at all). -/
theorem model_snapshot_independent (m : SemanticModel) (b : Builder)
    (s : SemanticModel) (h : model_from_builder m b = .ok s) :
    (∀ i b', b.push_inst? i = some b' →
        model_from_builder m b' =
          .ok { s with instructions := s.instructions ++ [i] } ∧
        s.instructions ≠ s.instructions ++ [i]) ∧
    (∀ name ty,
        model_from_builder m (b.add_external_function name ty).1 =
          .ok { s with external_functions :=
                  s.external_functions ++ [(name, ty)] } ∧
        s.external_functions ≠ s.external_functions ++ [(name, ty)]) ∧
    (∀ t, model_from_builder m ((b.fresh_variable t).2) = .ok s) := by
  rcases hf : b.frames with _ | ⟨x, _ | ⟨y, rest⟩⟩ <;>
    rw [model_from_builder, hf] at h
  · exact absurd h (by simp)
  case cons.nil =>
    replace h := ((Except.ok.injEq _ _).mp h).symm
    subst h
    refine ⟨?_, ?_, ?_⟩
    · intro i b' hp
      rw [Builder.push_inst?, hf] at hp
      replace hp := ((Option.some.injEq _ _).mp hp).symm
      subst hp
      constructor
      · simp [model_from_builder, hf]
      · intro he
        have := congrArg List.length he
        simp at this
    · intro name ty
      constructor
      · simp [model_from_builder, Builder.add_external_function, hf]
      · intro he
        have := congrArg List.length he
        simp at this
    · intro t
      simp [model_from_builder, Builder.fresh_variable, hf]
  · exact absurd h (by simp)

/-- Witness for C9: after snapshotting a fresh builder, appending `H` to
the builder yields a model carrying the new instruction, which the earlier
snapshot (with its empty instruction list) does not contain. -/
theorem model_snapshot_independent_witness :
    model_from_builder (SimpleModule.newModel "m" 1 1)
        { frames := [[Instruction.H ⟨qubitId 0⟩]]
          external_functions := []
          last_variable := none } =
      .ok { SimpleModule.newModel "m" 1 1 with
            instructions :=
              (SimpleModule.newModel "m" 1 1).instructions ++
                [Instruction.H ⟨qubitId 0⟩] } ∧
    (SimpleModule.newModel "m" 1 1).instructions ≠
      (SimpleModule.newModel "m" 1 1).instructions ++
        [Instruction.H ⟨qubitId 0⟩] :=
  (model_snapshot_independent (SimpleModule.newModel "m" 1 1) Builder.new
      (SimpleModule.newModel "m" 1 1) rfl).1
    (Instruction.H ⟨qubitId 0⟩)
    { frames := [[Instruction.H ⟨qubitId 0⟩]]
      external_functions := []
      last_variable := none } rfl

end PyQir
